import Mathlib

/-!
Verification development for the gpx-collaboration repository.

Server side (packages/server `index.ts`): an in-memory registry of rooms
(`rooms : Map<string, RoomContext>`), a per-origin room-creation throttle
(`roomCreationRate`), a passcode gate on the websocket upgrade path and a
per-room idle-eviction timer.  Client side (`RoomPage.tsx`,
`useRoomConnection.ts`): an undo manager tracking only the session-unique
local-edit origin, and a reconciler keeping map layers in sync with the
replicated feature list.

Timestamps are naturals (ms epoch), websocket handles are naturals, the
Y.Doc owned by a room is represented by the content the server never
touches (its feature list plus an opaque awareness payload).
-/

namespace GpxCollab

/-- A replicated feature: an id plus an opaque payload standing for the
geometry/properties the server and registry never inspect. -/
structure Feature where
  id : String
  payload : Nat
deriving DecidableEq, Repr

/-! ### Association-list model of the JS `Map` -/

/-- Lookup, `Map.prototype.get`. -/
def alGet (k : String) : List (String × α) → Option α
  | [] => none
  | (k₁, v) :: rest => if k₁ = k then some v else alGet k rest

/-- Update or insert, `Map.prototype.set`. -/
def alSet (k : String) (v : α) : List (String × α) → List (String × α)
  | [] => [(k, v)]
  | (k₁, v₁) :: rest => if k₁ = k then (k, v) :: rest else (k₁, v₁) :: alSet k v rest

/-- Removal, `Map.prototype.delete` (keys are unique in a JS `Map`, so
removing every binding of `k` is the same as removing the one binding). -/
def alDel (k : String) : List (String × α) → List (String × α)
  | [] => []
  | (k₁, v₁) :: rest => if k₁ = k then alDel k rest else (k₁, v₁) :: alDel k rest

@[simp] theorem alGet_nil (k : String) : alGet k ([] : List (String × α)) = none := rfl

@[simp] theorem alGet_alSet_self (k : String) (v : α) (m : List (String × α)) :
    alGet k (alSet k v m) = some v := by
  induction m with
  | nil => simp [alGet, alSet]
  | cons hd tl ih =>
    obtain ⟨k₁, v₁⟩ := hd
    by_cases h : k₁ = k <;> simp [alGet, alSet, h, ih]

theorem alGet_alSet_ne {k k₁ : String} (h : k₁ ≠ k) (v : α) (m : List (String × α)) :
    alGet k₁ (alSet k v m) = alGet k₁ m := by
  induction m with
  | nil => simp [alGet, alSet, Ne.symm h]
  | cons hd tl ih =>
    obtain ⟨k₂, v₂⟩ := hd
    by_cases h₂ : k₂ = k
    · subst h₂
      simp [alGet, alSet, Ne.symm h, h]
    · simp [alGet, alSet, h₂, ih]

@[simp] theorem alGet_alDel_self (k : String) (m : List (String × α)) :
    alGet k (alDel k m) = none := by
  induction m with
  | nil => simp [alGet, alDel]
  | cons hd tl ih =>
    obtain ⟨k₁, v₁⟩ := hd
    by_cases h : k₁ = k <;> simp [alGet, alDel, h, ih]

theorem alGet_alDel_ne {k k₁ : String} (h : k₁ ≠ k) (m : List (String × α)) :
    alGet k₁ (alDel k m) = alGet k₁ m := by
  induction m with
  | nil => simp [alDel]
  | cons hd tl ih =>
    obtain ⟨k₂, v₂⟩ := hd
    by_cases h₂ : k₂ = k
    · subst h₂
      simp [alGet, alDel, Ne.symm h, ih]
    · simp [alGet, alDel, h₂, ih]

theorem alSet_alSet (k : String) (v₁ v₂ : α) (m : List (String × α)) :
    alSet k v₂ (alSet k v₁ m) = alSet k v₂ m := by
  induction m with
  | nil => simp [alSet]
  | cons hd tl ih =>
    obtain ⟨k₁, w⟩ := hd
    by_cases h : k₁ = k <;> simp [alSet, h, ih]

/-! ### Server data model (`index.ts`) -/

/-- `RoomContext` from `index.ts`: the `doc` is represented by its feature
list, `awareness` by an opaque client-state table; `connections` is the set
of attached websocket handles; `cleanupTimer` holds the eviction deadline
while armed. -/
structure RoomContext where
  features : List Feature
  awareness : List (Nat × Nat)
  connections : List Nat
  createdAt : Nat
  lastActive : Nat
  passcode : Option String
  cleanupTimer : Option Nat
deriving DecidableEq, Repr

/-- Whole-process server state: `rooms`, `roomCreationRate` and
`totalRoomsCreated` from `index.ts`. -/
structure ServerState where
  rooms : List (String × RoomContext)
  roomCreationRate : List (String × Nat)
  totalRoomsCreated : Nat
deriving DecidableEq, Repr

/-- `ROOM_TTL_MINUTES` default 60, hence `ROOM_TTL_MS = 60 * 60 * 1000`. -/
def ROOM_TTL_MS : Nat := 60 * 60 * 1000

/-- `ROOM_CREATION_THROTTLE_MS` default. -/
def ROOM_CREATION_THROTTLE_MS : Nat := 3000

/-- JavaScript `s.slice(0, n)` on a string. -/
def sliceTo (n : Nat) (s : String) : String := String.mk (s.data.take n)

/-- JavaScript truthiness of `context.passcode` (an optional string):
falsy when absent or empty. -/
def passcodeTruthy : Option String → Bool
  | none => false
  | some s => !s.data.isEmpty

/-- `passcodeParam ? passcodeParam.slice(0, 128) : undefined` where
`passcodeParam = searchParams.get('k') ?? undefined`: an absent or empty
parameter becomes `undefined`, otherwise the value truncated to 128
characters. -/
def sanitizePasscode : Option String → Option String
  | none => none
  | some s => if s.data.isEmpty then none else some (sliceTo 128 s)

/-- `cleanupRoom` from `index.ts`, with explicit flags saying whether
`awareness.destroy()` / `doc.destroy()` throw.  Both calls sit in
`try`/`catch` blocks that only log, so the registry entry is removed either
way; the returned list is the log lines emitted. -/
def cleanupRoomWith (awarenessThrows docThrows : Bool) (roomId : String)
    (st : ServerState) : ServerState × List String :=
  match alGet roomId st.rooms with
  | none => (st, [])
  | some _ =>
    ({ st with rooms := alDel roomId st.rooms },
      ["destroying inactive room"]
        ++ (if awarenessThrows then ["failed to destroy awareness"] else [])
        ++ (if docThrows then ["failed to destroy ydoc"] else []))

/-- `cleanupRoom` on the normal (non-throwing) teardown path. -/
def cleanupRoom (roomId : String) (st : ServerState) : ServerState :=
  (cleanupRoomWith false false roomId st).1

/-- `scheduleCleanup`: re-arms the room's eviction timer for `now + TTL`
(clearing any previous timer is overwriting the field). -/
def scheduleCleanup (roomId : String) (now : Nat) (st : ServerState) : ServerState :=
  match alGet roomId st.rooms with
  | none => st
  | some ctx =>
    { st with rooms := alSet roomId ({ ctx with cleanupTimer := some (now + ROOM_TTL_MS) }) st.rooms }

/-- `canCreateRoom`: rejects when the origin created a room within the
throttle window, otherwise records `now` as the origin's last creation. -/
def canCreateRoom (ip : String) (now : Nat) (st : ServerState) : Bool × ServerState :=
  let last := (alGet ip st.roomCreationRate).getD 0
  if now - last < ROOM_CREATION_THROTTLE_MS then
    (false, st)
  else
    (true, { st with roomCreationRate := alSet ip now st.roomCreationRate })

/-- `ensureRoomContext`: returns the existing context or creates a fresh one
(empty connections, no timer) and bumps `totalRoomsCreated`. -/
def ensureRoomContext (roomId : String) (passcode : Option String) (now : Nat)
    (st : ServerState) : RoomContext × ServerState :=
  match alGet roomId st.rooms with
  | some ctx => (ctx, st)
  | none =>
    let ctx : RoomContext :=
      { features := [], awareness := [], connections := [],
        createdAt := now, lastActive := now, passcode := passcode, cleanupTimer := none }
    (ctx, { st with rooms := alSet roomId ctx st.rooms,
                    totalRoomsCreated := st.totalRoomsCreated + 1 })

/-- `Set.prototype.add` on the connection set. -/
def insertConn (c : Nat) (l : List Nat) : List Nat :=
  if c ∈ l then l else l ++ [c]

/-- Outcome of a websocket upgrade attempt past room-id validation. -/
inductive UpgradeOutcome where
  | abortedRateLimit
  | closedPasscode
  | closedRoomMissing
  | attached
deriving DecidableEq, Repr

/-- The `wss.handleUpgrade` callback: re-reads the registry; if the room
vanished it closes the socket with code 1011 `room-missing`, otherwise it
adds the connection, refreshes `lastActive` and cancels any pending
eviction timer. -/
def attachPhase (roomId : String) (conn : Nat) (now : Nat) (st : ServerState) :
    UpgradeOutcome × ServerState :=
  match alGet roomId st.rooms with
  | none => (.closedRoomMissing, st)
  | some room =>
    let room₁ : RoomContext :=
      { room with connections := insertConn conn room.connections,
                  lastActive := now, cleanupTimer := none }
    (.attached, { st with rooms := alSet roomId room₁ st.rooms })

/-- The `server.on('upgrade')` handler from the passcode/creation gate on
(room id already validated): creation throttle for new rooms, passcode check
and adoption for existing rooms, then the attach callback. -/
def handleUpgradeGate (roomId : String) (rawPasscode : Option String) (ip : String)
    (now : Nat) (conn : Nat) (st : ServerState) : UpgradeOutcome × ServerState :=
  let supplied := sanitizePasscode rawPasscode
  match alGet roomId st.rooms with
  | none =>
    match canCreateRoom ip now st with
    | (false, st₁) => (.abortedRateLimit, st₁)
    | (true, st₁) => attachPhase roomId conn now (ensureRoomContext roomId supplied now st₁).2
  | some ctx =>
    if passcodeTruthy ctx.passcode = true ∧ ctx.passcode ≠ supplied then
      (.closedPasscode, st)
    else
      let st₁ :=
        if passcodeTruthy ctx.passcode = false ∧ passcodeTruthy supplied = true then
          { st with rooms := alSet roomId ({ ctx with passcode := supplied }) st.rooms }
        else st
      attachPhase roomId conn now st₁

/-- The `server.on('upgrade')` handler when `wss.handleUpgrade` aborts the
websocket handshake (missing or invalid `Sec-WebSocket-Key`, non-GET
method, ...): ws replies 400 and never invokes the attach callback, so the
gate's registry mutations — the creation-throttle stamp, room creation via
`ensureRoomContext`, secret adoption — persist with no connection ever
attached. -/
def handleUpgradeNoAttach (roomId : String) (rawPasscode : Option String) (ip : String)
    (now : Nat) (st : ServerState) : ServerState :=
  let supplied := sanitizePasscode rawPasscode
  match alGet roomId st.rooms with
  | none =>
    match canCreateRoom ip now st with
    | (false, st₁) => st₁
    | (true, st₁) => (ensureRoomContext roomId supplied now st₁).2
  | some ctx =>
    if passcodeTruthy ctx.passcode = true ∧ ctx.passcode ≠ supplied then st
    else if passcodeTruthy ctx.passcode = false ∧ passcodeTruthy supplied = true then
      { st with rooms := alSet roomId ({ ctx with passcode := supplied }) st.rooms }
    else st

/-- The `ws.on('close')` handler: drop the connection, refresh
`lastActive`, and arm the eviction timer when the room just became empty. -/
def handleClose (roomId : String) (conn : Nat) (now : Nat) (st : ServerState) : ServerState :=
  match alGet roomId st.rooms with
  | none => st
  | some cur =>
    let conns := cur.connections.filter (fun c => c ≠ conn)
    let cur₁ : RoomContext := { cur with connections := conns, lastActive := now }
    let st₁ := { st with rooms := alSet roomId cur₁ st.rooms }
    if conns = [] then scheduleCleanup roomId now st₁ else st₁

/-- The registry before any connection. -/
def initState : ServerState := { rooms := [], roomCreationRate := [], totalRoomsCreated := 0 }

/-! ### Characterization of the upgrade handler's branches -/

theorem insertConn_ne_nil (c : Nat) (l : List Nat) : insertConn c l ≠ [] := by
  unfold insertConn
  split
  · exact List.ne_nil_of_mem (by assumption)
  · simp

theorem upgrade_new_limited (roomId : String) (raw : Option String) (ip : String)
    (now conn : Nat) (st : ServerState)
    (hroom : alGet roomId st.rooms = none)
    (hrate : now - (alGet ip st.roomCreationRate).getD 0 < ROOM_CREATION_THROTTLE_MS) :
    handleUpgradeGate roomId raw ip now conn st = (.abortedRateLimit, st) := by
  unfold handleUpgradeGate canCreateRoom
  simp [hroom, hrate]

/-- The room context right after a creating upgrade completes its attach. -/
def freshAttachedCtx (conn now : Nat) (supplied : Option String) : RoomContext :=
  { features := [], awareness := [], connections := [conn], createdAt := now,
    lastActive := now, passcode := supplied, cleanupTimer := none }

/-- The room context right after an upgrade attaches to an existing room:
possibly adopted passcode, the connection added, `lastActive` refreshed and
the eviction timer cancelled. -/
def reattachedCtx (ctx : RoomContext) (conn now : Nat) (supplied : Option String) : RoomContext :=
  { ctx with
      passcode :=
        if passcodeTruthy ctx.passcode = false ∧ passcodeTruthy supplied = true
        then supplied else ctx.passcode,
      connections := insertConn conn ctx.connections,
      lastActive := now, cleanupTimer := none }

/-- The room context right after its last connection closed: emptied
connection set and armed eviction timer. -/
def armedCtx (ctx : RoomContext) (now : Nat) : RoomContext :=
  { ctx with connections := [], lastActive := now,
             cleanupTimer := some (now + ROOM_TTL_MS) }

/-- The room context after a non-last connection closed. -/
def shrunkCtx (ctx : RoomContext) (conn now : Nat) : RoomContext :=
  { ctx with connections := ctx.connections.filter (fun c => c ≠ conn), lastActive := now }

theorem upgrade_new_allowed (roomId : String) (raw : Option String) (ip : String)
    (now conn : Nat) (st : ServerState)
    (hroom : alGet roomId st.rooms = none)
    (hrate : ¬ now - (alGet ip st.roomCreationRate).getD 0 < ROOM_CREATION_THROTTLE_MS) :
    handleUpgradeGate roomId raw ip now conn st =
      (.attached,
        { rooms := alSet roomId (freshAttachedCtx conn now (sanitizePasscode raw)) st.rooms,
          roomCreationRate := alSet ip now st.roomCreationRate,
          totalRoomsCreated := st.totalRoomsCreated + 1 }) := by
  unfold handleUpgradeGate canCreateRoom ensureRoomContext attachPhase freshAttachedCtx
  simp [hroom, hrate, insertConn, alSet_alSet]

theorem upgrade_existing_reject (roomId : String) (raw : Option String) (ip : String)
    (now conn : Nat) (st : ServerState) (ctx : RoomContext)
    (hroom : alGet roomId st.rooms = some ctx)
    (hT : passcodeTruthy ctx.passcode = true)
    (hne : ctx.passcode ≠ sanitizePasscode raw) :
    handleUpgradeGate roomId raw ip now conn st = (.closedPasscode, st) := by
  unfold handleUpgradeGate
  simp [hroom, hT, hne]

theorem upgrade_existing_attach (roomId : String) (raw : Option String) (ip : String)
    (now conn : Nat) (st : ServerState) (ctx : RoomContext)
    (hroom : alGet roomId st.rooms = some ctx)
    (hok : ¬ (passcodeTruthy ctx.passcode = true ∧ ctx.passcode ≠ sanitizePasscode raw)) :
    handleUpgradeGate roomId raw ip now conn st =
      (.attached,
        { st with rooms := alSet roomId (reattachedCtx ctx conn now (sanitizePasscode raw)) st.rooms }) := by
  unfold handleUpgradeGate attachPhase reattachedCtx
  by_cases hadopt : passcodeTruthy ctx.passcode = false ∧
      passcodeTruthy (sanitizePasscode raw) = true
  · simp [hroom, hok, hadopt, alSet_alSet]
  · simp [hroom, hok, hadopt]

theorem handleClose_empty (roomId : String) (conn now : Nat) (st : ServerState)
    (cur : RoomContext)
    (hget : alGet roomId st.rooms = some cur)
    (hempty : cur.connections.filter (fun c => c ≠ conn) = []) :
    handleClose roomId conn now st =
      { st with rooms := alSet roomId (armedCtx cur now) st.rooms } := by
  unfold handleClose scheduleCleanup armedCtx
  simp only [hget]
  rw [hempty]
  simp [alSet_alSet]

theorem handleClose_nonempty (roomId : String) (conn now : Nat) (st : ServerState)
    (cur : RoomContext)
    (hget : alGet roomId st.rooms = some cur)
    (hne : cur.connections.filter (fun c => c ≠ conn) ≠ []) :
    handleClose roomId conn now st =
      { st with rooms := alSet roomId (shrunkCtx cur conn now) st.rooms } := by
  unfold handleClose shrunkCtx
  simp only [hget]
  rw [if_neg hne]

/-- The room context a creating upgrade leaves behind when its handshake
is aborted after the gate admitted it: no connection ever attaches and no
timer is ever armed. -/
def strandedCtx (now : Nat) (supplied : Option String) : RoomContext :=
  { features := [], awareness := [], connections := [], createdAt := now,
    lastActive := now, passcode := supplied, cleanupTimer := none }

theorem upgradeNoAttach_new_allowed (roomId : String) (raw : Option String) (ip : String)
    (now : Nat) (st : ServerState)
    (hroom : alGet roomId st.rooms = none)
    (hrate : ¬ now - (alGet ip st.roomCreationRate).getD 0 < ROOM_CREATION_THROTTLE_MS) :
    handleUpgradeNoAttach roomId raw ip now st =
      { rooms := alSet roomId (strandedCtx now (sanitizePasscode raw)) st.rooms,
        roomCreationRate := alSet ip now st.roomCreationRate,
        totalRoomsCreated := st.totalRoomsCreated + 1 } := by
  unfold handleUpgradeNoAttach canCreateRoom ensureRoomContext strandedCtx
  simp [hroom, hrate]

/-! ### Reachability and the registry invariant (claim C4) -/

/-- Per-room shape of the registry invariant: the eviction timer is armed
exactly while the connection set is empty. -/
def RoomInv (ctx : RoomContext) : Prop :=
  ctx.cleanupTimer.isSome = true ↔ ctx.connections = []

/-- The invariant over the whole registry. -/
def StateInv (st : ServerState) : Prop :=
  ∀ roomId ctx, alGet roomId st.rooms = some ctx → RoomInv ctx

/-- One completed registry operation, as executed atomically by the
single-threaded event loop: a websocket upgrade whose handshake completes
(gateway plus attach callback), a socket close, or an armed eviction timer
firing (teardown may throw).  An upgrade whose handshake `wss.handleUpgrade`
aborts after the gate admitted it is a separate step of
`RegistryStepFull`. -/
inductive RegistryStep : ServerState → ServerState → Prop where
  | upgrade (roomId : String) (raw : Option String) (ip : String) (now conn : Nat)
      (st : ServerState) :
      RegistryStep st (handleUpgradeGate roomId raw ip now conn st).2
  | close (roomId : String) (conn now : Nat) (st : ServerState) :
      RegistryStep st (handleClose roomId conn now st)
  | evict (aT dT : Bool) (roomId : String) (st : ServerState) (ctx : RoomContext)
      (hget : alGet roomId st.rooms = some ctx) (harmed : ctx.cleanupTimer.isSome = true) :
      RegistryStep st (cleanupRoomWith aT dT roomId st).1

/-- Every registry mutation of the program: the completed operations plus
an upgrade whose websocket handshake is aborted by `wss.handleUpgrade`
after the gate already touched the registry, so the attach callback never
runs. -/
inductive RegistryStepFull : ServerState → ServerState → Prop where
  | completed (st st₁ : ServerState) (h : RegistryStep st st₁) : RegistryStepFull st st₁
  | upgradeAborted (roomId : String) (raw : Option String) (ip : String) (now : Nat)
      (st : ServerState) :
      RegistryStepFull st (handleUpgradeNoAttach roomId raw ip now st)

/-- States the registry can be in via completed operations only, starting
from the empty registry. -/
def ReachableState (st : ServerState) : Prop :=
  Relation.ReflTransGen RegistryStep initState st

/-- States the registry can be in when aborted handshakes are included. -/
def ReachableStateFull (st : ServerState) : Prop :=
  Relation.ReflTransGen RegistryStepFull initState st

/-- The pair (connection set, eviction timer) of a registered room, the
data the registry invariant speaks about. -/
def roomLiveness (st : ServerState) (roomId : String) : Option (List Nat × Option Nat) :=
  (alGet roomId st.rooms).map (fun c => (c.connections, c.cleanupTimer))

theorem stateInv_upgrade (roomId : String) (raw : Option String) (ip : String)
    (now conn : Nat) (st : ServerState) (h : StateInv st) :
    StateInv (handleUpgradeGate roomId raw ip now conn st).2 := by
  cases hroom : alGet roomId st.rooms with
  | none =>
    by_cases hrate : now - (alGet ip st.roomCreationRate).getD 0 < ROOM_CREATION_THROTTLE_MS
    · rw [upgrade_new_limited roomId raw ip now conn st hroom hrate]
      exact h
    · rw [upgrade_new_allowed roomId raw ip now conn st hroom hrate]
      intro r c hc
      by_cases hr : r = roomId
      · subst hr
        rw [alGet_alSet_self] at hc
        cases hc
        simp [RoomInv, freshAttachedCtx]
      · rw [alGet_alSet_ne hr] at hc
        exact h r c hc
  | some ctx =>
    by_cases hok : passcodeTruthy ctx.passcode = true ∧ ctx.passcode ≠ sanitizePasscode raw
    · rw [upgrade_existing_reject roomId raw ip now conn st ctx hroom hok.1 hok.2]
      exact h
    · rw [upgrade_existing_attach roomId raw ip now conn st ctx hroom hok]
      intro r c hc
      by_cases hr : r = roomId
      · subst hr
        rw [alGet_alSet_self] at hc
        cases hc
        simp [RoomInv, reattachedCtx, insertConn_ne_nil]
      · rw [alGet_alSet_ne hr] at hc
        exact h r c hc

theorem stateInv_close (roomId : String) (conn now : Nat) (st : ServerState)
    (h : StateInv st) : StateInv (handleClose roomId conn now st) := by
  cases hroom : alGet roomId st.rooms with
  | none =>
    unfold handleClose
    simp only [hroom]
    exact h
  | some cur =>
    by_cases hempty : cur.connections.filter (fun c => c ≠ conn) = []
    · rw [handleClose_empty roomId conn now st cur hroom hempty]
      intro r c hc
      by_cases hr : r = roomId
      · subst hr
        rw [alGet_alSet_self] at hc
        cases hc
        simp [RoomInv, armedCtx]
      · rw [alGet_alSet_ne hr] at hc
        exact h r c hc
    · rw [handleClose_nonempty roomId conn now st cur hroom hempty]
      intro r c hc
      by_cases hr : r = roomId
      · subst hr
        rw [alGet_alSet_self] at hc
        cases hc
        have hcur : cur.connections ≠ [] := by
          intro hnil
          exact hempty (by simp [hnil])
        have hnone : cur.cleanupTimer.isSome = false := by
          have hinv := h _ cur hroom
          unfold RoomInv at hinv
          cases htimer : cur.cleanupTimer.isSome
          · rfl
          · exact absurd (hinv.mp htimer) hcur
        unfold RoomInv shrunkCtx
        show cur.cleanupTimer.isSome = true ↔ cur.connections.filter (fun c => c ≠ conn) = []
        rw [hnone]
        constructor
        · intro hfalse
          exact absurd hfalse (by decide)
        · intro hfil
          exact absurd hfil hempty
      · rw [alGet_alSet_ne hr] at hc
        exact h r c hc

theorem stateInv_evict (aT dT : Bool) (roomId : String) (st : ServerState)
    (h : StateInv st) : StateInv (cleanupRoomWith aT dT roomId st).1 := by
  unfold cleanupRoomWith
  cases hroom : alGet roomId st.rooms with
  | none => exact h
  | some cur =>
    intro r c hc
    by_cases hr : r = roomId
    · subst hr
      rw [alGet_alDel_self] at hc
      cases hc
    · rw [alGet_alDel_ne hr] at hc
      exact h r c hc

theorem stateInv_step {st st₁ : ServerState} (h : StateInv st) (hs : RegistryStep st st₁) :
    StateInv st₁ := by
  cases hs with
  | upgrade roomId raw ip now conn st => exact stateInv_upgrade roomId raw ip now conn st h
  | close roomId conn now st => exact stateInv_close roomId conn now st h
  | evict aT dT roomId st ctx hget harmed => exact stateInv_evict aT dT roomId st h

theorem stateInv_reachable {st : ServerState} (h : ReachableState st) : StateInv st := by
  induction h with
  | refl => intro r c hc; cases hc
  | tail _ hstep ih => exact stateInv_step ih hstep

/-! ### Client: transaction origins and the undo manager (claim C2)

`useRoomConnection.ts` builds `new Y.UndoManager(features, { trackedOrigins:
new Set([undoOrigin]) })` where `undoOrigin = Symbol('local-edit')` is
minted once per client session (`RoomPage.tsx`), and every locally
originated mutation runs inside `doc.transact(..., undoOrigin)`.  The
`Y.UndoManager` itself is the external yjs primitive; its behaviour is
modelled from the specification: it records only transactions whose origin
is in `trackedOrigins`, undo pops the most recent recorded transaction and
applies its inverse, and a new tracked transaction clears the redo stack. -/

/-- A transaction origin: the session-unique local-edit tag of one client,
or any other (remote) origin. -/
inductive YOrigin where
  | localTag : Nat → YOrigin
  | remoteTag : Nat → YOrigin
deriving DecidableEq, Repr

/-- An invertible operation on the shared feature list. -/
inductive UndoOp where
  | addFeature : Feature → UndoOp
  | removeFeature : Feature → UndoOp
deriving DecidableEq, Repr

/-- Remove the first feature with the given id. -/
def eraseById (fid : String) : List Feature → List Feature
  | [] => []
  | f :: rest => if f.id = fid then rest else f :: eraseById fid rest

def applyUndoOp : UndoOp → List Feature → List Feature
  | .addFeature f, l => l ++ [f]
  | .removeFeature f, l => eraseById f.id l

def invUndoOp : UndoOp → UndoOp
  | .addFeature f => .removeFeature f
  | .removeFeature f => .addFeature f

/-- A document transaction: an origin tag plus the operation it applies. -/
structure YTxn where
  origin : YOrigin
  op : UndoOp
deriving DecidableEq, Repr

/-- Modelled from the spec: the undo manager as configured in
`useRoomConnection.ts`, tracking exactly one origin. -/
structure UndoManagerM where
  tracked : YOrigin
  undoStack : List UndoOp
  redoStack : List UndoOp
deriving DecidableEq, Repr

/-- A client's view of the document plus its undo manager. -/
structure ClientDoc where
  features : List Feature
  manager : UndoManagerM
deriving DecidableEq, Repr

/-- Modelled from the spec: applying one transaction; the manager records
it (and clears redo) only when its origin equals the tracked tag. -/
def applyTxn (d : ClientDoc) (t : YTxn) : ClientDoc :=
  { features := applyUndoOp t.op d.features,
    manager :=
      if t.origin = d.manager.tracked then
        { d.manager with undoStack := d.manager.undoStack ++ [t.op], redoStack := [] }
      else d.manager }

def applyTxns (d : ClientDoc) : List YTxn → ClientDoc
  | [] => d
  | t :: rest => applyTxns (applyTxn d t) rest

/-- Modelled from the spec: undo pops the most recent tracked transaction,
applies its inverse, and moves it to the redo stack. -/
def undoStep (d : ClientDoc) : ClientDoc :=
  match d.manager.undoStack.getLast? with
  | none => d
  | some op =>
    { features := applyUndoOp (invUndoOp op) d.features,
      manager := { d.manager with
        undoStack := d.manager.undoStack.dropLast,
        redoStack := d.manager.redoStack ++ [op] } }

@[simp] theorem applyTxn_tracked (d : ClientDoc) (t : YTxn) :
    (applyTxn d t).manager.tracked = d.manager.tracked := by
  unfold applyTxn
  by_cases h : t.origin = d.manager.tracked <;> simp [h]

theorem applyTxns_undoStack (ts : List YTxn) (d : ClientDoc) :
    (applyTxns d ts).manager.undoStack =
      d.manager.undoStack ++
        (ts.filter (fun t => t.origin = d.manager.tracked)).map YTxn.op := by
  induction ts generalizing d with
  | nil => simp [applyTxns]
  | cons t rest ih =>
    unfold applyTxns
    rw [ih]
    by_cases h : t.origin = d.manager.tracked
    · simp [applyTxn, h, List.filter_cons]
    · simp [applyTxn, h, List.filter_cons]

/-- Concrete scenario features for the undo-scoping claim. -/
def fa : Feature := { id := "fa", payload := 0 }

def fb : Feature := { id := "fb", payload := 1 }

def fc : Feature := { id := "fc", payload := 2 }

/-- This client's session-unique local-edit tag. -/
def mySession : YOrigin := .localTag 0

/-- A peer's origin as observed remotely. -/
def peerOrigin : YOrigin := .remoteTag 1

def emptyClientDoc : ClientDoc :=
  { features := [], manager := { tracked := mySession, undoStack := [], redoStack := [] } }

/-- Local transaction A, remote transaction B, local transaction C. -/
def txnA : YTxn := { origin := mySession, op := .addFeature fa }

def txnB : YTxn := { origin := peerOrigin, op := .addFeature fb }

def txnC : YTxn := { origin := mySession, op := .addFeature fc }

def docAfterABC : ClientDoc := applyTxns emptyClientDoc [txnA, txnB, txnC]

/-! ### Client: reconciler and mutation handlers (claims C6, C7)

From `RoomPage.tsx`: `handleCreate`, `handleRemove`, `handleImportFiles`,
`shareView`, `commitFeatureUpdate` (the throttled geometry edit/move commit)
and `syncLayers`.  `layers` is `layersRef` (feature id → map layer),
`suppressLocalEvents` is `suppressLocalEventsRef`, `txns` records every
transaction this client committed to the shared document together with its
origin tag. -/

/-- One document transaction committed by this client. -/
inductive DocMutation where
  | createFeature : Feature → DocMutation
  | updateFeature : Nat → Feature → DocMutation
  | deleteFeature : Nat → DocMutation
  | importFeatures : List Feature → DocMutation
  | setSharedView : Nat → DocMutation
deriving DecidableEq, Repr

/-- Client-side state of `RoomPage`: the connection's feature list, the
view layers, the suppression flag, the read-only flag, the shared-view slot
and the log of committed transactions. -/
structure ClientState where
  readOnly : Bool
  suppressLocalEvents : Bool
  features : List Feature
  layers : List String
  sharedView : Option Nat
  txns : List (YOrigin × DocMutation)
deriving DecidableEq, Repr

/-- `Array.prototype.findIndex` by feature id, as `Option Nat`. -/
def findFeatureIdx (fid : String) : List Feature → Option Nat
  | [] => none
  | f :: rest => if f.id = fid then some 0 else (findFeatureIdx fid rest).map (· + 1)

/-- `features.delete(index, 1)`. -/
def listDelete (l : List Feature) (i : Nat) : List Feature :=
  l.take i ++ l.drop (i + 1)

/-- `pm:create` handler: in read-only mode the freshly drawn layer is
removed under suppression before it is registered anywhere, and no
transaction is committed; otherwise the feature is pushed to the document
(origin-tagged) and the layer registered. -/
def handleCreate (origin : YOrigin) (f : Feature) (s : ClientState) : ClientState :=
  if s.readOnly then s
  else
    { s with features := s.features ++ [f],
             layers := s.layers ++ [f.id],
             txns := s.txns ++ [(origin, .createFeature f)] }

/-- `pm:remove` handler: ignored while suppressed or read-only; otherwise
deletes the feature with the given id from the document in an origin-tagged
transaction. -/
def handleRemove (origin : YOrigin) (fid : String) (s : ClientState) : ClientState :=
  if s.suppressLocalEvents || s.readOnly then s
  else
    match findFeatureIdx fid s.features with
    | none => s
    | some i =>
      { s with features := listDelete s.features i,
               txns := s.txns ++ [(origin, .deleteFeature i)] }

/-- `commitFeatureUpdate`, reached from the throttled geometry edit/move
handler: replaces the feature at its index in a single origin-tagged
transaction.  The source has no read-only guard on this path. -/
def commitFeatureUpdate (origin : YOrigin) (f : Feature) (s : ClientState) : ClientState :=
  match findFeatureIdx f.id s.features with
  | none => s
  | some i =>
    { s with features := s.features.set i f,
             txns := s.txns ++ [(origin, .updateFeature i f)] }

/-- `handleImportFiles` after GPX parsing: rejected while read-only;
otherwise pushes all imported features in one origin-tagged transaction. -/
def handleImportFiles (origin : YOrigin) (imported : List Feature) (s : ClientState) :
    ClientState :=
  if s.readOnly then s
  else if imported.isEmpty then s
  else
    { s with features := s.features ++ imported,
             txns := s.txns ++ [(origin, .importFeatures imported)] }

/-- `shareView`: rejected while read-only; otherwise writes the view slot
in one origin-tagged transaction. -/
def shareView (origin : YOrigin) (v : Nat) (s : ClientState) : ClientState :=
  if s.readOnly then s
  else
    { s with sharedView := some v,
             txns := s.txns ++ [(origin, .setSharedView v)] }

/-- First pass of `syncLayers`: for every feature in the list, create its
layer if absent (updating geometry otherwise does not change the key set). -/
def addLayers : List Feature → List String → List String
  | [], ls => ls
  | f :: rest, ls => addLayers rest (if f.id ∈ ls then ls else ls ++ [f.id])

/-- Second pass of `syncLayers`: over a snapshot of the layer keys, remove
every layer whose id is not in the kept set.  The removal itself happens
with `suppressLocalEventsRef` set, so the `pm:remove` event it may fire is
swallowed by `handleRemove`, then the flag is reset. -/
def removeStale (origin : YOrigin) (keep : List String) :
    List String → ClientState → ClientState
  | [], s => s
  | fid :: rest, s =>
    if fid ∈ keep then removeStale origin keep rest s
    else
      let s₁ := { s with suppressLocalEvents := true }
      let s₂ := handleRemove origin fid s₁
      let s₃ := { s₂ with suppressLocalEvents := false,
                          layers := s₂.layers.filter (fun l => l ≠ fid) }
      removeStale origin keep rest s₃

/-- `syncLayers`: reconcile the layer set with the feature list. -/
def syncLayers (origin : YOrigin) (items : List Feature) (s : ClientState) : ClientState :=
  let seen := items.map Feature.id
  let s₁ := { s with layers := addLayers items s.layers }
  removeStale origin seen s₁.layers s₁

theorem handleRemove_suppressed (origin : YOrigin) (fid : String) (s : ClientState)
    (h : s.suppressLocalEvents = true) : handleRemove origin fid s = s := by
  unfold handleRemove
  simp [h]

theorem addLayers_mem (a : String) (items : List Feature) (ls : List String) :
    a ∈ addLayers items ls ↔ a ∈ ls ∨ a ∈ items.map Feature.id := by
  induction items generalizing ls with
  | nil => simp [addLayers]
  | cons f rest ih =>
    unfold addLayers
    rw [ih]
    by_cases hmem : f.id ∈ ls
    · simp only [hmem, if_true, List.map_cons, List.mem_cons]
      by_cases ha : a = f.id
      · subst ha; tauto
      · tauto
    · simp only [hmem, if_false, List.mem_append, List.mem_singleton, List.map_cons,
        List.mem_cons]
      tauto

theorem removeStale_frame (origin : YOrigin) (keep snap : List String) (s : ClientState)
    (hsup : s.suppressLocalEvents = false) :
    (removeStale origin keep snap s).features = s.features ∧
    (removeStale origin keep snap s).txns = s.txns ∧
    (removeStale origin keep snap s).suppressLocalEvents = false ∧
    (removeStale origin keep snap s).readOnly = s.readOnly ∧
    (removeStale origin keep snap s).sharedView = s.sharedView := by
  induction snap generalizing s with
  | nil => simp [removeStale, hsup]
  | cons fid rest ih =>
    unfold removeStale
    by_cases hk : fid ∈ keep
    · simp only [hk, if_true]
      exact ih s hsup
    · simp only [hk, if_false]
      rw [handleRemove_suppressed origin fid _ (by simp)]
      exact ih _ (by simp)

theorem removeStale_layers_mem (origin : YOrigin) (a : String) (keep snap : List String)
    (s : ClientState) (hsup : s.suppressLocalEvents = false) :
    (a ∈ (removeStale origin keep snap s).layers ↔
      a ∈ s.layers ∧ (a ∈ keep ∨ a ∉ snap)) := by
  induction snap generalizing s with
  | nil => simp [removeStale]
  | cons fid rest ih =>
    unfold removeStale
    by_cases hk : fid ∈ keep
    · simp only [hk, if_true]
      rw [ih s hsup]
      simp only [List.mem_cons]
      by_cases ha : a = fid
      · subst ha; tauto
      · tauto
    · simp only [hk, if_false]
      rw [handleRemove_suppressed origin fid _ (by simp)]
      rw [ih _ (by simp)]
      simp only [List.mem_filter, List.mem_cons, decide_eq_true_eq]
      by_cases ha : a = fid
      · subst ha; tauto
      · tauto

theorem syncLayers_frame (origin : YOrigin) (items : List Feature) (s : ClientState)
    (hsup : s.suppressLocalEvents = false) :
    (syncLayers origin items s).features = s.features ∧
    (syncLayers origin items s).txns = s.txns ∧
    (syncLayers origin items s).suppressLocalEvents = false ∧
    (syncLayers origin items s).readOnly = s.readOnly ∧
    (syncLayers origin items s).sharedView = s.sharedView := by
  unfold syncLayers
  exact removeStale_frame origin (items.map Feature.id) _ _ (by simp [hsup])

theorem syncLayers_layers_mem (origin : YOrigin) (a : String) (items : List Feature)
    (s : ClientState) (hsup : s.suppressLocalEvents = false) :
    (a ∈ (syncLayers origin items s).layers ↔ a ∈ items.map Feature.id) := by
  unfold syncLayers
  rw [removeStale_layers_mem origin a (items.map Feature.id) _ _ (by simp [hsup])]
  simp only [addLayers_mem]
  tauto

theorem findFeatureIdx_append_fresh (l : List Feature) (f : Feature)
    (h : f.id ∉ l.map Feature.id) :
    findFeatureIdx f.id (l ++ [f]) = some l.length := by
  induction l with
  | nil => simp [findFeatureIdx]
  | cons g rest ih =>
    have hg : g.id ≠ f.id := by
      intro he
      exact h (by simp [he.symm])
    have hrest : f.id ∉ rest.map Feature.id := by
      intro hmem
      exact h (by simp [hmem])
    unfold findFeatureIdx
    simp [hg, ih hrest]

theorem listDelete_append (l : List Feature) (f : Feature) :
    listDelete (l ++ [f]) l.length = l := by
  induction l with
  | nil => rfl
  | cons g rest ih =>
    unfold listDelete at ih ⊢
    simp only [List.cons_append, List.length_cons, List.take_succ_cons, List.drop_succ_cons]
    exact congrArg (g :: ·) ih

/-! ### Concrete states used by witnesses and counterexamples -/

/-- A room with one live connection, one feature and no passcode. -/
def roomA : RoomContext :=
  { features := [fa], awareness := [(7, 1)], connections := [5],
    createdAt := 10, lastActive := 10, passcode := none, cleanupTimer := none }

def oneRoomState : ServerState :=
  { rooms := [("room1", roomA)], roomCreationRate := [], totalRoomsCreated := 1 }

/-- A room protected by the short passcode `pw`. -/
def pwCtx : RoomContext :=
  { features := [], awareness := [], connections := [9],
    createdAt := 0, lastActive := 0, passcode := some "pw", cleanupTimer := none }

def pwState : ServerState :=
  { rooms := [("room1", pwCtx)], roomCreationRate := [], totalRoomsCreated := 1 }

/-- A 128-character secret, the longest the gate ever stores. -/
def s128 : String := String.mk (List.replicate 128 'a')

/-- A 129-character supplied secret extending `s128` by one character. -/
def s129 : String := String.mk (List.replicate 128 'a' ++ ['b'])

/-- A room whose adopted secret has the maximal stored length. -/
def longSecretCtx : RoomContext :=
  { features := [], awareness := [], connections := [9],
    createdAt := 0, lastActive := 0, passcode := some s128, cleanupTimer := none }

def longSecretState : ServerState :=
  { rooms := [("roomx", longSecretCtx)], roomCreationRate := [], totalRoomsCreated := 1 }

def c9Ip : String := "203.0.113.7"

def c9Step1 : UpgradeOutcome × ServerState :=
  handleUpgradeGate "room-a" none c9Ip 100000 1 initState

def c9Step2 : UpgradeOutcome × ServerState :=
  handleUpgradeGate "room-b" none c9Ip 100500 2 c9Step1.2

def c9Step2Late : UpgradeOutcome × ServerState :=
  handleUpgradeGate "room-b" none c9Ip 104000 2 c9Step1.2

/-! ### Claim theorems -/

/-- Claim C8: `cleanupRoom` is idempotent and unconditionally terminal:
whatever the teardown throw flags, after one call the room id is absent
from the registry, a second call is a no-op that logs nothing, and nothing
else in the server state changes. -/
theorem c8_evict_idempotent_terminal (aT dT : Bool) (roomId other : String)
    (st : ServerState) (hne : other ≠ roomId) :
    alGet roomId (cleanupRoomWith aT dT roomId st).1.rooms = none ∧
    cleanupRoomWith aT dT roomId (cleanupRoomWith aT dT roomId st).1 =
      ((cleanupRoomWith aT dT roomId st).1, []) ∧
    alGet other (cleanupRoomWith aT dT roomId st).1.rooms = alGet other st.rooms ∧
    (cleanupRoomWith aT dT roomId st).1.roomCreationRate = st.roomCreationRate ∧
    (cleanupRoomWith aT dT roomId st).1.totalRoomsCreated = st.totalRoomsCreated := by
  cases hroom : alGet roomId st.rooms with
  | none =>
    unfold cleanupRoomWith
    simp [hroom]
  | some cur =>
    unfold cleanupRoomWith
    simp [hroom, alGet_alDel_ne hne]

/-- Claim C8 witness: the theorem evaluated with both teardown calls
throwing, on a concrete one-room registry. -/
theorem c8_evict_idempotent_terminal_witness :
    alGet "room1" (cleanupRoomWith true true "room1" oneRoomState).1.rooms = none ∧
    cleanupRoomWith true true "room1" (cleanupRoomWith true true "room1" oneRoomState).1 =
      ((cleanupRoomWith true true "room1" oneRoomState).1, []) ∧
    alGet "other" (cleanupRoomWith true true "room1" oneRoomState).1.rooms =
      alGet "other" oneRoomState.rooms ∧
    (cleanupRoomWith true true "room1" oneRoomState).1.roomCreationRate =
      oneRoomState.roomCreationRate ∧
    (cleanupRoomWith true true "room1" oneRoomState).1.totalRoomsCreated =
      oneRoomState.totalRoomsCreated :=
  c8_evict_idempotent_terminal true true "room1" "other" oneRoomState (by decide)

/-- Claim C9: with the 3000 ms creation throttle, two creating upgrades for
distinct new rooms from the same origin 500 ms apart leave the second one
rejected with the rate-limit status and no room state created, while the
same second attempt 4000 ms after the first succeeds and creates its
room. -/
theorem c9_throttle_scenario :
    c9Step1.1 = .attached ∧
    (alGet "room-a" c9Step1.2.rooms).isSome = true ∧
    c9Step2.1 = .abortedRateLimit ∧
    c9Step2.2 = c9Step1.2 ∧
    alGet "room-b" c9Step2.2.rooms = none ∧
    c9Step2Late.1 = .attached ∧
    (alGet "room-b" c9Step2Late.2.rooms).isSome = true := by
  decide

/-- Claim C10: a rejected creation attempt returns the state unchanged (in
particular the per-origin last-creation timestamp is untouched), the
timestamp is recorded exactly on allowed attempts, and therefore a rejected
attempt does not change the outcome of any later attempt by that origin. -/
theorem c10_rejected_attempt_no_timestamp (ip : String) (now now₂ : Nat) (st : ServerState) :
    ((canCreateRoom ip now st).1 = false → (canCreateRoom ip now st).2 = st) ∧
    ((canCreateRoom ip now st).1 = true →
      (canCreateRoom ip now st).2.roomCreationRate = alSet ip now st.roomCreationRate ∧
      (canCreateRoom ip now st).2.rooms = st.rooms) ∧
    ((canCreateRoom ip now st).1 = false →
      canCreateRoom ip now₂ (canCreateRoom ip now st).2 = canCreateRoom ip now₂ st) := by
  unfold canCreateRoom
  by_cases h : now - (alGet ip st.roomCreationRate).getD 0 < ROOM_CREATION_THROTTLE_MS
  · simp [h]
  · simp [h]

/-- Claim C10 witness: an attempt 100 ms after server start is rejected and
leaves the empty state untouched. -/
theorem c10_rejected_attempt_no_timestamp_witness :
    (canCreateRoom c9Ip 100 initState).2 = initState :=
  (c10_rejected_attempt_no_timestamp c9Ip 100 200 initState).1 (by decide)

/-- Claim C5 counterexample: an attach that finds its room destroyed does
not create a fresh room context and attach to it, contrary to the claim —
the socket is closed with the `room-missing` code and the registry still
has no such room. -/
theorem c5_room_missing_counterexample :
    (attachPhase "abc" 1 0 initState).1 = .closedRoomMissing ∧
    (attachPhase "abc" 1 0 initState).1 ≠ .attached ∧
    alGet "abc" (attachPhase "abc" 1 0 initState).2.rooms = none := by
  decide

/-- Claim C5 amended: a racing attach that finds the room gone closes the
connection with the distinct `room-missing` code (1011) and leaves the
registry exactly as it was — it neither attaches to a half-destroyed
context nor creates a fresh one. -/
theorem c5_attach_room_missing (roomId : String) (conn now : Nat) (st : ServerState)
    (h : alGet roomId st.rooms = none) :
    attachPhase roomId conn now st = (.closedRoomMissing, st) := by
  unfold attachPhase
  simp [h]

/-- Claim C5 witness: the amended theorem evaluated on the empty
registry. -/
theorem c5_attach_room_missing_witness :
    attachPhase "abc" 1 0 initState = (.closedRoomMissing, initState) :=
  c5_attach_room_missing "abc" 1 0 initState (by decide)

/-- Claim C3 counterexample: the gate compares `supplied.slice(0, 128)`,
not the supplied secret itself.  With the adopted secret `s128` (128
characters), the different 129-character secret `s129` is accepted, so a
connection supplying a secret different from the stored one is not always
rejected. -/
theorem c3_truncation_counterexample :
    s129 ≠ s128 ∧
    longSecretCtx.passcode = some s128 ∧
    (handleUpgradeGate "roomx" (some s129) "ip" 50 2 longSecretState).1 = .attached := by
  decide

/-- Claim C3 amended: the stored secret is compared against the supplied
secret truncated to its first 128 characters (empty supplied secrets count
as absent).  Under that comparison the gate is exact: a mismatch closes the
socket with the 4003 passcode code and returns the state unchanged, a match
attaches, and a connection supplying nothing to a secretless room
attaches. -/
theorem c3_passcode_gate (roomId : String) (raw : Option String) (ip : String)
    (now conn : Nat) (st : ServerState) (ctx : RoomContext) (S : String)
    (hget : alGet roomId st.rooms = some ctx) :
    (ctx.passcode = none → raw = none →
      (handleUpgradeGate roomId raw ip now conn st).1 = .attached) ∧
    (ctx.passcode = some S → S.data ≠ [] →
      (sanitizePasscode raw = some S →
        (handleUpgradeGate roomId raw ip now conn st).1 = .attached) ∧
      (sanitizePasscode raw ≠ some S →
        handleUpgradeGate roomId raw ip now conn st = (.closedPasscode, st))) := by
  constructor
  · intro hnone hraw
    have hok : ¬ (passcodeTruthy ctx.passcode = true ∧ ctx.passcode ≠ sanitizePasscode raw) := by
      rintro ⟨hT, _⟩
      rw [hnone] at hT
      exact absurd hT (by decide)
    rw [upgrade_existing_attach roomId raw ip now conn st ctx hget hok]
  · intro hsome hnonempty
    constructor
    · intro hmatch
      have hok : ¬ (passcodeTruthy ctx.passcode = true ∧
          ctx.passcode ≠ sanitizePasscode raw) := by
        rintro ⟨_, hne⟩
        exact hne (hsome.trans hmatch.symm)
      rw [upgrade_existing_attach roomId raw ip now conn st ctx hget hok]
    · intro hmismatch
      have hT : passcodeTruthy ctx.passcode = true := by
        rw [hsome]
        unfold passcodeTruthy
        simp [hnonempty]
      have hne : ctx.passcode ≠ sanitizePasscode raw := by
        rw [hsome]
        exact fun he => hmismatch he.symm
      exact upgrade_existing_reject roomId raw ip now conn st ctx hget hT hne

/-- Claim C3 witness: on a room storing the secret `pw`, supplying `pw`
attaches and supplying `zz` is closed with the passcode code leaving the
state untouched; a room with no secret accepts a connection supplying
none. -/
theorem c3_passcode_gate_witness :
    (handleUpgradeGate "room1" (some "pw") "ip" 50 2 pwState).1 = .attached ∧
    handleUpgradeGate "room1" (some "zz") "ip" 50 2 pwState = (.closedPasscode, pwState) ∧
    (handleUpgradeGate "room1" none "ip" 50 2 oneRoomState).1 = .attached := by
  refine ⟨?_, ?_, ?_⟩
  · exact ((c3_passcode_gate "room1" (some "pw") "ip" 50 2 pwState pwCtx "pw"
      (by decide)).2 (by decide) (by decide)).1 (by decide)
  · exact ((c3_passcode_gate "room1" (some "zz") "ip" 50 2 pwState pwCtx "pw"
      (by decide)).2 (by decide) (by decide)).2 (by decide)
  · exact (c3_passcode_gate "room1" none "ip" 50 2 oneRoomState roomA "pw"
      (by decide)).1 (by decide) (by decide)

/-- Claim C1 counterexample: a reattach within TTL does not always leave
the access secret what it was before the gap.  On a room with no stored
secret, a reattaching connection supplying `?k=x` while the eviction timer
is pending is attached and its secret `x` is adopted by the room, so the
room context's access secret changed across the gap. -/
theorem c1_secret_adoption_counterexample :
    roomA.passcode = none ∧
    (alGet "room1" (handleClose "room1" 5 20 oneRoomState).rooms).map
      RoomContext.cleanupTimer = some (some (20 + ROOM_TTL_MS)) ∧
    (handleUpgradeGate "room1" (some "x") "ip" 30 6
      (handleClose "room1" 5 20 oneRoomState)).1 = .attached ∧
    (alGet "room1" (handleUpgradeGate "room1" (some "x") "ip" 30 6
        (handleClose "room1" 5 20 oneRoomState)).2.rooms).map
      RoomContext.passcode = some (some "x") := by
  decide

/-- Claim C1 amended: an accepted reattach that lands before the eviction
timer fires cancels the timer; the feature list, presence state and
creation time after the detach-then-reattach round trip are exactly those
before the detach and other rooms are untouched.  The access secret is
likewise unchanged — except that a reattach to a room with no stored
secret that supplies one adopts it as the room's secret: the secret after
the gap is exactly the supplied one in that case and the old one in every
other. -/
theorem c1_reattach_preserves_doc (roomId other : String) (raw : Option String) (ip : String)
    (t₁ t₂ c c₂ : Nat) (st : ServerState) (ctx : RoomContext)
    (hget : alGet roomId st.rooms = some ctx)
    (hconns : ctx.connections = [c])
    (hok : ¬ (passcodeTruthy ctx.passcode = true ∧ ctx.passcode ≠ sanitizePasscode raw))
    (hother : other ≠ roomId) :
    (alGet roomId (handleClose roomId c t₁ st).rooms).map RoomContext.cleanupTimer =
      some (some (t₁ + ROOM_TTL_MS)) ∧
    (alGet roomId (handleClose roomId c t₁ st).rooms).map RoomContext.features =
      some ctx.features ∧
    (handleUpgradeGate roomId raw ip t₂ c₂ (handleClose roomId c t₁ st)).1 = .attached ∧
    (alGet roomId
        (handleUpgradeGate roomId raw ip t₂ c₂ (handleClose roomId c t₁ st)).2.rooms).map
      RoomContext.features = some ctx.features ∧
    (alGet roomId
        (handleUpgradeGate roomId raw ip t₂ c₂ (handleClose roomId c t₁ st)).2.rooms).map
      RoomContext.awareness = some ctx.awareness ∧
    (alGet roomId
        (handleUpgradeGate roomId raw ip t₂ c₂ (handleClose roomId c t₁ st)).2.rooms).map
      RoomContext.createdAt = some ctx.createdAt ∧
    (alGet roomId
        (handleUpgradeGate roomId raw ip t₂ c₂ (handleClose roomId c t₁ st)).2.rooms).map
      RoomContext.passcode =
        some (if passcodeTruthy ctx.passcode = false ∧
                passcodeTruthy (sanitizePasscode raw) = true
              then sanitizePasscode raw else ctx.passcode) ∧
    (alGet roomId
        (handleUpgradeGate roomId raw ip t₂ c₂ (handleClose roomId c t₁ st)).2.rooms).map
      RoomContext.cleanupTimer = some none ∧
    (alGet roomId
        (handleUpgradeGate roomId raw ip t₂ c₂ (handleClose roomId c t₁ st)).2.rooms).map
      RoomContext.connections = some [c₂] ∧
    alGet other
        (handleUpgradeGate roomId raw ip t₂ c₂ (handleClose roomId c t₁ st)).2.rooms =
      alGet other st.rooms := by
  have hempty : ctx.connections.filter (fun x => x ≠ c) = [] := by
    rw [hconns]
    simp
  have hclose := handleClose_empty roomId c t₁ st ctx hget hempty
  rw [hclose]
  have hget₁ : alGet roomId (alSet roomId (armedCtx ctx t₁) st.rooms) =
      some (armedCtx ctx t₁) := alGet_alSet_self roomId _ st.rooms
  have hok₁ : ¬ (passcodeTruthy (armedCtx ctx t₁).passcode = true ∧
      (armedCtx ctx t₁).passcode ≠ sanitizePasscode raw) := by
    simpa [armedCtx] using hok
  have hup := upgrade_existing_attach roomId raw ip t₂ c₂
    { st with rooms := alSet roomId (armedCtx ctx t₁) st.rooms } (armedCtx ctx t₁) hget₁ hok₁
  rw [hup]
  simp only [alGet_alSet_self, alSet_alSet, hget₁]
  rw [alGet_alSet_ne hother]
  refine ⟨by simp [armedCtx], by simp [armedCtx], trivial, ?_, ?_, ?_, ?_, ?_, ?_, rfl⟩
  · simp [reattachedCtx, armedCtx]
  · simp [reattachedCtx, armedCtx]
  · simp [reattachedCtx, armedCtx]
  · simp [reattachedCtx, armedCtx]
  · simp [reattachedCtx, armedCtx]
  · simp [reattachedCtx, armedCtx, insertConn]

/-- Claim C1 witness: a secretless one-connection room detaches at
`t = 20` and an accepted reattach supplying `?k=x` lands at `t = 30`; the
features survive the gap, the timer is cleared, and the supplied secret is
adopted exactly as the amended claim states. -/
theorem c1_reattach_preserves_doc_witness :
    (alGet "room1"
        (handleUpgradeGate "room1" (some "x") "ip" 30 6 (handleClose "room1" 5 20 oneRoomState)).2.rooms).map
      RoomContext.features = some roomA.features ∧
    (alGet "room1"
        (handleUpgradeGate "room1" (some "x") "ip" 30 6 (handleClose "room1" 5 20 oneRoomState)).2.rooms).map
      RoomContext.cleanupTimer = some none ∧
    (alGet "room1"
        (handleUpgradeGate "room1" (some "x") "ip" 30 6 (handleClose "room1" 5 20 oneRoomState)).2.rooms).map
      RoomContext.passcode = some (some "x") := by
  have h := c1_reattach_preserves_doc "room1" "other" (some "x") "ip" 20 30 5 6
    oneRoomState roomA (by decide) (by decide) (by decide) (by decide)
  refine ⟨h.2.2.2.1, h.2.2.2.2.2.2.2.1, ?_⟩
  rw [h.2.2.2.2.2.2.1]
  decide

/-- Claim C4 counterexample: the registry invariant is violated by the
program.  One crafted request whose websocket handshake is aborted after
the gate admitted it leaves a reachable state in which room `abc` is
registered with zero connections and no eviction timer — such a room is
not detached synchronously and, with no timer, is never evicted. -/
theorem c4_stranded_room_counterexample :
    ReachableStateFull (handleUpgradeNoAttach "abc" none c9Ip 100000 initState) ∧
    roomLiveness (handleUpgradeNoAttach "abc" none c9Ip 100000 initState) "abc" =
      some ([], none) := by
  constructor
  · exact Relation.ReflTransGen.single
      (RegistryStepFull.upgradeAborted "abc" none c9Ip 100000 initState)
  · decide

/-- Claim C4 amended: in every state reachable through completed operations
(upgrades whose handshake completes, socket closes, timer firings) a
present room's eviction timer is armed exactly when its connection set is
empty — so every such registered room has a live connection or an armed
timer.  An upgrade admitted for a new room whose handshake is then aborted
breaks this: it registers the room with zero connections and no timer. -/
theorem c4_registry_invariant_amended (st : ServerState) (h : ReachableState st)
    (roomId newId : String) (ctx : RoomContext) (raw : Option String) (ip : String)
    (now : Nat)
    (hget : alGet roomId st.rooms = some ctx)
    (hnew : alGet newId st.rooms = none)
    (hrate : ¬ now - (alGet ip st.roomCreationRate).getD 0 < ROOM_CREATION_THROTTLE_MS) :
    (ctx.cleanupTimer.isSome = true ↔ ctx.connections = []) ∧
    (ctx.connections ≠ [] ∨ ctx.cleanupTimer.isSome = true) ∧
    roomLiveness (handleUpgradeNoAttach newId raw ip now st) newId = some ([], none) := by
  have hinv := stateInv_reachable h roomId ctx hget
  unfold RoomInv at hinv
  refine ⟨hinv, ?_, ?_⟩
  · by_cases hc : ctx.connections = []
    · exact Or.inr (hinv.mpr hc)
    · exact Or.inl hc
  · rw [upgradeNoAttach_new_allowed newId raw ip now st hnew hrate]
    unfold roomLiveness strandedCtx
    simp

/-- Claim C4 witness: the amended invariant and the stranded-room behavior
evaluated in the state reached by one completed creating upgrade. -/
theorem c4_registry_invariant_amended_witness :
    ((freshAttachedCtx 1 100000 none).cleanupTimer.isSome = true ↔
      (freshAttachedCtx 1 100000 none).connections = []) ∧
    ((freshAttachedCtx 1 100000 none).connections ≠ [] ∨
      (freshAttachedCtx 1 100000 none).cleanupTimer.isSome = true) ∧
    roomLiveness
      (handleUpgradeNoAttach "xyz" none c9Ip 200000
        (handleUpgradeGate "abc" none c9Ip 100000 1 initState).2) "xyz" = some ([], none) :=
  c4_registry_invariant_amended (handleUpgradeGate "abc" none c9Ip 100000 1 initState).2
    (Relation.ReflTransGen.single (RegistryStep.upgrade "abc" none c9Ip 100000 1 initState))
    "abc" "xyz" (freshAttachedCtx 1 100000 none) none c9Ip 200000
    (by decide) (by decide) (by decide)

/-- Claim C2: the undo manager is populated only from transactions whose
origin equals this client's own session-unique local-edit tag, and on the
sequence [local A, remote B, local C] one undo reverts exactly C, a second
undo reverts exactly A, and remote B's effect persists through both
(with both reverted operations moved to the redo stack). -/
theorem c2_undo_scoping :
    (∀ (d : ClientDoc) (ts : List YTxn),
      (applyTxns d ts).manager.undoStack =
        d.manager.undoStack ++
          (ts.filter (fun t => t.origin = d.manager.tracked)).map YTxn.op) ∧
    docAfterABC.features = [fa, fb, fc] ∧
    docAfterABC.manager.undoStack = [UndoOp.addFeature fa, UndoOp.addFeature fc] ∧
    (undoStep docAfterABC).features = [fa, fb] ∧
    (undoStep (undoStep docAfterABC)).features = [fb] ∧
    (undoStep (undoStep docAfterABC)).manager.undoStack = [] ∧
    (undoStep (undoStep docAfterABC)).manager.redoStack =
      [UndoOp.addFeature fc, UndoOp.addFeature fa] := by
  refine ⟨fun d ts => applyTxns_undoStack ts d, ?_, ?_, ?_, ?_, ?_, ?_⟩ <;> decide

/-- Read-only client holding one synchronized feature, used to probe the
read-only guards. -/
def f0 : Feature := { id := "t1", payload := 0 }

def editedF0 : Feature := { id := "t1", payload := 1 }

def roClient : ClientState :=
  { readOnly := true, suppressLocalEvents := false, features := [f0],
    layers := ["t1"], sharedView := none, txns := [] }

/-- Claim C6 counterexample: the geometry edit/move commit path
(`commitFeatureUpdate`) has no read-only guard — on a read-only client it
commits an update transaction to the shared document, so not every locally
originated mutation path is rejected before reaching the document. -/
theorem c6_readonly_edit_counterexample :
    roClient.readOnly = true ∧
    (commitFeatureUpdate mySession editedF0 roClient).txns =
      [(mySession, DocMutation.updateFeature 0 editedF0)] ∧
    (commitFeatureUpdate mySession editedF0 roClient).features = [editedF0] := by
  decide

/-- Claim C6 amended: the create, delete, GPX-import and shared-view-update
paths each reject a read-only client before any transaction reaches the
document (the handler is a no-op); the geometry edit/move commit path
carries no such guard and relies on edit modes being impossible to enable
in read-only mode. -/
theorem c6_readonly_guards (origin : YOrigin) (f : Feature) (fid : String)
    (imported : List Feature) (v : Nat) (s : ClientState) (h : s.readOnly = true) :
    handleCreate origin f s = s ∧
    handleRemove origin fid s = s ∧
    handleImportFiles origin imported s = s ∧
    shareView origin v s = s := by
  unfold handleCreate handleRemove handleImportFiles shareView
  simp [h]

/-- Claim C6 witness: the four guarded handlers evaluated on a concrete
read-only client are all no-ops. -/
theorem c6_readonly_guards_witness :
    handleCreate mySession editedF0 roClient = roClient ∧
    handleRemove mySession "t1" roClient = roClient ∧
    handleImportFiles mySession [editedF0] roClient = roClient ∧
    shareView mySession 3 roClient = roClient :=
  c6_readonly_guards mySession editedF0 "t1" [editedF0] 3 roClient (by decide)

/-- The client state after committing a freshly drawn feature and letting
the observer run `syncLayers`. -/
def afterCommit (origin : YOrigin) (f : Feature) (s : ClientState) : ClientState :=
  syncLayers origin (handleCreate origin f s).features (handleCreate origin f s)

/-- The client state after the user then deletes that feature's view
object (`pm:remove`, unsuppressed) and the observer reconciles again. -/
def afterDelete (origin : YOrigin) (f : Feature) (s : ClientState) : ClientState :=
  syncLayers origin (handleRemove origin f.id (afterCommit origin f s)).features
    (handleRemove origin f.id (afterCommit origin f s))

/-- Claim C7: committing a feature creates a matching view layer,
reconciliation keeps the layer set exactly equal to the feature ids
present, a subsequent user-initiated deletion of the view object removes
the feature from the document (and then its layer), and reconciliation
itself — whose removals run under the suppression flag — never changes the
feature list and never emits a transaction: the only transactions after
the round trip are the user's create and delete. -/
theorem c7_reconciler_round_trip (origin : YOrigin) (f : Feature) (s : ClientState)
    (items : List Feature) (a : String)
    (hro : s.readOnly = false) (hsup : s.suppressLocalEvents = false)
    (hfresh : f.id ∉ s.features.map Feature.id) :
    f.id ∈ (afterCommit origin f s).layers ∧
    (afterCommit origin f s).features = s.features ++ [f] ∧
    (afterDelete origin f s).features = s.features ∧
    f.id ∉ (afterDelete origin f s).layers ∧
    (afterDelete origin f s).txns =
      s.txns ++ [(origin, .createFeature f), (origin, .deleteFeature s.features.length)] ∧
    (a ∈ (syncLayers origin items s).layers ↔ a ∈ items.map Feature.id) ∧
    (syncLayers origin items s).features = s.features ∧
    (syncLayers origin items s).txns = s.txns := by
  have hs₁ : handleCreate origin f s =
      { s with features := s.features ++ [f], layers := s.layers ++ [f.id],
               txns := s.txns ++ [(origin, .createFeature f)] } := by
    unfold handleCreate
    rw [if_neg (by simp [hro])]
  have hsup₁ : (handleCreate origin f s).suppressLocalEvents = false := by
    rw [hs₁]
    exact hsup
  have hro₁ : (handleCreate origin f s).readOnly = false := by
    rw [hs₁]
    exact hro
  obtain ⟨hfeat₂, htxn₂, hsup₂, hro₂, _⟩ :=
    syncLayers_frame origin (handleCreate origin f s).features (handleCreate origin f s) hsup₁
  have hfeat₂' : (afterCommit origin f s).features = s.features ++ [f] := by
    unfold afterCommit
    rw [hfeat₂, hs₁]
  have hro₂' : (afterCommit origin f s).readOnly = false := by
    unfold afterCommit
    rw [hro₂]
    exact hro₁
  have hsup₂' : (afterCommit origin f s).suppressLocalEvents = false := hsup₂
  have htxn₂' : (afterCommit origin f s).txns = s.txns ++ [(origin, .createFeature f)] := by
    unfold afterCommit
    rw [htxn₂, hs₁]
  have hmem₂ : f.id ∈ (afterCommit origin f s).layers := by
    unfold afterCommit
    rw [syncLayers_layers_mem origin f.id _ _ hsup₁, hs₁]
    simp
  have hidx : findFeatureIdx f.id (afterCommit origin f s).features = some s.features.length := by
    rw [hfeat₂']
    exact findFeatureIdx_append_fresh s.features f hfresh
  have hs₃ : handleRemove origin f.id (afterCommit origin f s) =
      { afterCommit origin f s with
          features := listDelete (afterCommit origin f s).features s.features.length,
          txns := (afterCommit origin f s).txns ++ [(origin, .deleteFeature s.features.length)] } := by
    unfold handleRemove
    rw [if_neg (by simp [hsup₂', hro₂'])]
    simp only [hidx]
  have hfeat₃ : (handleRemove origin f.id (afterCommit origin f s)).features = s.features := by
    rw [hs₃]
    show listDelete (afterCommit origin f s).features s.features.length = s.features
    rw [hfeat₂']
    exact listDelete_append s.features f
  have hsup₃ : (handleRemove origin f.id (afterCommit origin f s)).suppressLocalEvents = false := by
    rw [hs₃]
    exact hsup₂'
  have htxn₃ : (handleRemove origin f.id (afterCommit origin f s)).txns =
      s.txns ++ [(origin, .createFeature f), (origin, .deleteFeature s.features.length)] := by
    rw [hs₃]
    show (afterCommit origin f s).txns ++ [(origin, .deleteFeature s.features.length)] =
      s.txns ++ [(origin, .createFeature f), (origin, .deleteFeature s.features.length)]
    rw [htxn₂']
    simp
  obtain ⟨hfeat₄, htxn₄, _, _, _⟩ :=
    syncLayers_frame origin (handleRemove origin f.id (afterCommit origin f s)).features
      (handleRemove origin f.id (afterCommit origin f s)) hsup₃
  refine ⟨hmem₂, hfeat₂', ?_, ?_, ?_, ?_, ?_, ?_⟩
  · unfold afterDelete
    rw [hfeat₄]
    exact hfeat₃
  · unfold afterDelete
    rw [syncLayers_layers_mem origin f.id _ _ hsup₃, hfeat₃]
    exact fun hmem => hfresh hmem
  · unfold afterDelete
    rw [htxn₄]
    exact htxn₃
  · exact syncLayers_layers_mem origin a items s hsup
  · exact (syncLayers_frame origin items s hsup).1
  · exact (syncLayers_frame origin items s hsup).2.1

/-- An editable client with no features yet. -/
def emptyClient : ClientState :=
  { readOnly := false, suppressLocalEvents := false, features := [],
    layers := [], sharedView := none, txns := [] }

/-- Claim C7 witness: the round trip evaluated on an empty editable client
with one concrete feature. -/
theorem c7_reconciler_round_trip_witness :
    f0.id ∈ (afterCommit mySession f0 emptyClient).layers ∧
    (afterDelete mySession f0 emptyClient).features = emptyClient.features ∧
    f0.id ∉ (afterDelete mySession f0 emptyClient).layers ∧
    (afterDelete mySession f0 emptyClient).txns =
      emptyClient.txns ++ [(mySession, .createFeature f0), (mySession, .deleteFeature 0)] := by
  have h := c7_reconciler_round_trip mySession f0 emptyClient [] "t1"
    (by decide) (by decide) (by decide)
  exact ⟨h.1, h.2.2.1, h.2.2.2.1, h.2.2.2.2.1⟩

end GpxCollab
